import Mathlib

/-!
Verification of the curve construction, compositing and calibration engine of
the rateslib-curve-demo repository.

Dates are modelled as integer day offsets from an arbitrary epoch; the day
arithmetic of the Python sources (timedelta addition, comparison) becomes Int
arithmetic.  Rates and discount factors are modelled as exact rationals; all
the claims under study concern control flow, counting and tolerance logic,
none of them floating-point representation.

The repository's own files (src/api/curves.py, src/api/curves/build.py,
src/api/risk.py, src/api/curves_hybrid.py, src/railway/api_server.py) are
embedded directly.  The numerical engine they call (the rateslib Curve,
CompositeCurve and Solver classes, and the DateMath utilities) is not part of
the repository's sources; where a claim is decided by that engine the relevant
operation is modelled from the specification, and each such definition carries
a doc comment beginning "Modelled from the spec:".
-/

namespace CurveDemo

/-! ## Node dictionaries

Python builds every node set as a dict keyed by date, e.g.
`short_nodes[fomc_date] = 1.0` in build_composite_curve (src/api/curves.py,
lines 224-239).  A Python dict preserves insertion order and silently
overwrites the value when a key is assigned twice.  `dictInsert` reproduces
exactly that semantics on an association list. -/

/-- Association-list model of one Python dict assignment `ns[d] = v`:
if the key is present its value is replaced in place, otherwise the pair is
appended, mirroring insertion-ordered Python dict semantics. -/
def dictInsert (ns : List (Int × ℚ)) (d : Int) (v : ℚ) : List (Int × ℚ) :=
  if ns.any (fun p => p.1 = d) then
    ns.map (fun p => if p.1 = d then (d, v) else p)
  else
    ns ++ [(d, v)]

/-- Whether a date is already a key of the node dictionary. -/
def hasKey (ns : List (Int × ℚ)) (d : Int) : Bool :=
  ns.any (fun p => p.1 = d)

/-- Value lookup in the node dictionary. -/
def lookupKey (ns : List (Int × ℚ)) (d : Int) : Option ℚ :=
  (ns.find? (fun p => p.1 = d)).map Prod.snd

/-! ## build_composite_curve of src/api/curves.py

The short-end node dictionary (lines 224-239): the anchor node at the curve
date, then every FOMC date strictly between the curve date and curve date +
540 days, then the short-tenor maturity dates.  Tenor-to-date conversion
(rl.add_tenor) belongs to the external DateMath collaborator, so the tenor
maturity dates are taken as an input list here. -/

/-- Short-end node dictionary construction of build_composite_curve
(src/api/curves.py lines 224-239): anchor node, FOMC-date nodes filtered to
the open window (curveDate, curveDate + 540), then short-tenor dates, all
inserted with Python dict assignment semantics. -/
def shortNodes (curveDate : Int) (fomcDates : List Int) (tenorDates : List Int) :
    List (Int × ℚ) :=
  let ns := [(curveDate, (1 : ℚ))]
  let ns := fomcDates.foldl
    (fun acc d =>
      if curveDate < d ∧ d < curveDate + 540 then dictInsert acc d 1 else acc) ns
  tenorDates.foldl (fun acc d => dictInsert acc d 1) ns

/-- Number of free node unknowns of the short segment: every node except the
fixed anchor at the curve date. -/
def freeNodeCount (curveDate : Int) (fomcDates : List Int) (tenorDates : List Int) : Nat :=
  (shortNodes curveDate fomcDates tenorDates).length - 1

/-- Calibration instrument of the demo: a forward-rate agreement with explicit
effective and termination day and a fixed rate, or a par swap identified by
its tenor string (its schedule belongs to the external DateMath collaborator). -/
inductive Inst where
  | fra (effective : Int) (termination : Int) (fixed_rate : ℚ)
  | irs (effective : Int) (termination : String)
deriving DecidableEq, Repr

/-- Turn-instrument construction of build_composite_curve (src/api/curves.py
lines 260-281): when the FOMC list has more than one entry, one FRA pinned one
day either side of the first FOMC date at fixed rate 5.33 and, under the
code's redundant second length test, one FRA around the second FOMC date at
5.08; otherwise no turn instrument. -/
def turnInstruments (fomcDates : List Int) : List Inst × List ℚ :=
  if fomcDates.length > 1 then
    let f0 := fomcDates.getD 0 0
    let acc := ([Inst.fra (f0 - 1) (f0 + 1) (533 / 100)], [(533 : ℚ) / 100])
    if fomcDates.length > 1 then
      let f1 := fomcDates.getD 1 0
      (acc.1 ++ [Inst.fra (f1 - 1) (f1 + 1) (508 / 100)], acc.2 ++ [(508 : ℚ) / 100])
    else acc
  else ([], [])

/-- Full calibration instrument and target-rate lists of build_composite_curve
(src/api/curves.py lines 256-292): the turn FRAs followed by one par swap per
short tenor, whose target rate is the matching entry of the short-rate list. -/
def compositeInstruments (curveDate : Int) (fomcDates : List Int)
    (shortTenors : List String) (shortRates : List ℚ) : List Inst × List ℚ :=
  let tp := turnInstruments fomcDates
  (tp.1 ++ shortTenors.map (fun t => Inst.irs (curveDate + 2) t),
   tp.2 ++ (List.range shortTenors.length).map (fun i => shortRates.getD i 0))

/-- Number of instruments handed to the composite Solver call. -/
def instrumentCount (curveDate : Int) (fomcDates : List Int)
    (shortTenors : List String) (shortRates : List ℚ) : Nat :=
  (compositeInstruments curveDate fomcDates shortTenors shortRates).1.length

/-- Turn-instrument construction of build_composite_curve_rl
(src/api/curves_hybrid.py lines 248-257): exactly one FRA around the first
FOMC date at fixed rate 4.29, added when the FOMC list is non-empty and its
first date is after the curve date. -/
def turnInstrumentsHybrid (curveDate : Int) (fomcDates : List Int) :
    List Inst × List ℚ :=
  if fomcDates.length > 0 ∧ curveDate < fomcDates.getD 0 0 then
    let f0 := fomcDates.getD 0 0
    ([Inst.fra (f0 - 1) (f0 + 1) (429 / 100)], [(429 : ℚ) / 100])
  else ([], [])

/-! ## Calibration solver

The Solver class invoked throughout src/ belongs to the rateslib engine, whose
sources are not part of this repository.  Its iteration and stopping behavior
is therefore modelled from the specification (section 4.4): Newton iteration
on the residual vector, stopping when the maximum absolute residual falls
below the tolerance, failing with a CalibrationError carrying the last
residual vector and the iteration count when the cap is exhausted.  The Newton
update itself (Jacobian assembly and linear solve) is kept as an abstract
state-update function, since every claim under study depends only on the
stopping rule, not on the particular update. -/

/-- Result record of one calibration call, from the specification's
SolverResult data model. -/
structure SolverResult (σ : Type) where
  solved_curve : σ
  iterations : Nat
  residuals : List ℚ
  converged : Bool
deriving Repr

/-- Calibration failure record, from the specification's error taxonomy:
the last residual vector and the iteration count. -/
structure CalibrationError where
  last_residuals : List ℚ
  iterations : Nat
deriving Repr

/-- Maximum absolute entry of a residual vector (zero for the empty vector). -/
def maxAbs (l : List ℚ) : ℚ :=
  l.foldl (fun m x => max m |x|) 0

/-- Modelled from the spec: default convergence tolerance of the calibration
solver, 1e-8 in rate units (section 4.4 step 4); the solver itself is absent
from the repository's sources. -/
def defaultTol : ℚ := 1 / 100000000

/-- Modelled from the spec: default iteration cap of the calibration solver
(section 4.4 step 4). -/
def defaultCap : Nat := 50

/-- Modelled from the spec: the calibration loop of the rateslib Solver,
absent from the repository's sources (section 4.4).  Before each Newton
update the residual vector is evaluated; the loop returns successfully, with
converged set, exactly when the maximum absolute residual is below the
tolerance, and fails with the last residual vector and the iteration count
when the remaining iteration budget is exhausted.  The Newton update is the
abstract argument since the claims depend only on the stopping rule. -/
def solveLoop {σ : Type} (resid : σ → List ℚ) (update : σ → σ) (tol : ℚ) :
    Nat → σ → Nat → Except CalibrationError (SolverResult σ)
  | 0, s, iters => .error ⟨resid s, iters⟩
  | fuel + 1, s, iters =>
    if maxAbs (resid s) < tol then .ok ⟨s, iters, resid s, true⟩
    else solveLoop resid update tol fuel (update s) (iters + 1)

/-- Modelled from the spec: one calibration call of the rateslib Solver with
the default tolerance and iteration cap. -/
def solve {σ : Type} (resid : σ → List ℚ) (update : σ → σ) (s0 : σ) :
    Except CalibrationError (SolverResult σ) :=
  solveLoop resid update defaultTol defaultCap s0 0

/-- Residual vector of a calibration problem: the par rate of each instrument
on the current curve state minus its target rate (section 4.4: par_rate_i of
curve x minus target_rate_i). -/
def calibResiduals {σ : Type} (parRate : Nat → σ → ℚ) (targets : List ℚ) (s : σ) :
    List ℚ :=
  (List.range targets.length).map (fun i => parRate i s - targets.getD i 0)

/-! ## Composite curve pipeline

build_composite_curve (src/api/curves.py lines 194-299) first solves the long
segment standalone and only then runs the composite calibration.  Which node
values the composite Solver treats as free belongs to the rateslib engine and
is modelled from the specification (section 4.4 step 5): the already-solved
long segment enters the composite solve as a fixed, non-free input, so the
composite Newton update rewrites only the short segment's values. -/

/-- Joint node-value state of the two segments of a composite curve. -/
structure CompositeState where
  longVals : List ℚ
  shortVals : List ℚ
deriving Repr, DecidableEq

/-- Modelled from the spec: the composite calibration's Newton update touches
only the short segment's free node values; the solved long segment is a fixed
non-free input (section 4.4 step 5). -/
def compositeUpdate (shortStep : CompositeState → List ℚ) (s : CompositeState) :
    CompositeState :=
  ⟨s.longVals, shortStep s⟩

/-- Pipeline of build_composite_curve (src/api/curves.py lines 194-299): the
long segment is solved standalone first, and the composite calibration then
starts from that solved long segment, varying only the short values.  The
standalone long solve and the composite residual and short-step functions are
abstract inputs. -/
def buildCompositePipeline (solveLong : List ℚ → List ℚ)
    (resid : CompositeState → List ℚ) (shortStep : CompositeState → List ℚ)
    (longInit shortInit : List ℚ) :
    Except CalibrationError (SolverResult CompositeState) :=
  let longSolved := solveLong longInit
  solve resid (compositeUpdate shortStep) ⟨longSolved, shortInit⟩

/-! ## Per-point series computation

Two series loops of the repository.  build_curve (src/api/curves/build.py
lines 137-162) computes the zero-rate, discount-factor and forward-rate
series inside one try block; when a point's query fails its handler appends
the previous value of each series, or a default (4.0, 1.0, 4.0) when the
series is still empty.  build_curves (src/api/curves.py lines 91-118) appends
None for a failed point.  A query is modelled as an Option-valued function;
none is the raised exception. -/

/-- Per-point series loop of build_curve (src/api/curves/build.py lines
137-162): each point queries the zero rate, discount factor and forward rate
at once; on failure the handler appends the previous value of each series, or
the defaults 4, 1 and 4 when a series is still empty. -/
def buildCurveSeries (q : Int → Option (ℚ × ℚ × ℚ)) (pts : List Int) :
    List ℚ × List ℚ × List ℚ :=
  pts.foldl
    (fun acc p =>
      match q p with
      | some (z, d, f) => (acc.1 ++ [z], acc.2.1 ++ [d], acc.2.2 ++ [f])
      | none =>
        (acc.1 ++ [acc.1.getLastD 4], acc.2.1 ++ [acc.2.1.getLastD 1],
         acc.2.2 ++ [acc.2.2.getLastD 4]))
    ([], [], [])

/-- Per-point forward series of build_curves (src/api/curves.py lines
91-118): each point's 1-day forward query is recorded as its value times 100,
and a failed point is recorded as None. -/
def buildCurvesForwardSeries (q : Int → Option ℚ) (pts : List Int) :
    List (Option ℚ) :=
  pts.map (fun p => (q p).map (fun v => v * 100))

/-! ## Risk metrics dispatch

calculate_risk_metrics exists twice: in src/api/risk.py (lines 213-325) and
in src/railway/api_server.py (lines 327-421).  Both branch on the instrument
type string; the valuations themselves are produced by the rateslib engine
and enter here as abstract inputs, one value triple per curve and instrument
variant.  The two versions differ exactly in the fallthrough branch. -/

/-- Valuation triple of one instrument on one curve: npv, dv01 and convexity. -/
structure RiskValues where
  npv : ℚ
  dv01 : ℚ
  convexity : ℚ
deriving Repr, DecidableEq

/-- Outcome of a risk-metrics computation: a well-formed result carrying the
per-curve valuations and their differences, or a raised error. -/
inductive RiskOutcome where
  | result (instrument_type : String) (smooth composite : RiskValues)
      (npv_diff dv01_diff dv01_pct : ℚ)
  | error (msg : String)
deriving Repr, DecidableEq

/-- Shared tail of both calculate_risk_metrics versions: package the two
curves' valuations and their differences, with the dv01 percentage guarded
against a zero smooth dv01. -/
def riskPackage (instType : String) (sm co : RiskValues) : RiskOutcome :=
  .result instType sm co (co.npv - sm.npv) (co.dv01 - sm.dv01)
    (if sm.dv01 ≠ 0 then (co.dv01 - sm.dv01) / sm.dv01 * 100 else 0)

/-- calculate_risk_metrics of src/api/risk.py (lines 213-325): dispatch on
the instrument-type string; the final else branch defaults every metric to
zero and still returns a well-formed result. -/
def calculateRiskMetricsRisk (instType : String)
    (swapSm swapCo fraSm fraCo : RiskValues) : RiskOutcome :=
  if instType = "swap" then riskPackage instType swapSm swapCo
  else if instType = "fra" then riskPackage instType fraSm fraCo
  else riskPackage instType ⟨0, 0, 0⟩ ⟨0, 0, 0⟩

/-- calculate_risk_metrics of src/railway/api_server.py (lines 327-421):
same dispatch, but the final else branch raises an error naming the unknown
instrument type. -/
def calculateRiskMetricsServer (instType : String)
    (swapSm swapCo fraSm fraCo : RiskValues) : RiskOutcome :=
  if instType = "swap" then riskPackage instType swapSm swapCo
  else if instType = "fra" then riskPackage instType fraSm fraCo
  else .error ("Unknown instrument type: " ++ instType)

/-- Concrete query for the series loops: day 0 evaluates, day 1 raises (a
point outside the curve's coverage). -/
def exampleQueryTriple : Int → Option (ℚ × ℚ × ℚ) :=
  fun p => if p = 0 then some (7, 9 / 10, 7) else none

/-- Concrete single-valued query with the same failure pattern. -/
def exampleQueryOne : Int → Option ℚ :=
  fun p => if p = 0 then some 7 else none

/-! ## Flat-forward segment

The flat_forward interpolation scheme requested by build_composite_curve
(src/api/curves.py lines 241-248) is implemented inside the rateslib engine
and is modelled here from the specification (section 4.1): between nodes the
instantaneous forward rate is constant, equivalently the log discount factor
is linear in elapsed time.  A segment is the ordered list of (date, log
discount factor) node pairs; the day-count convention is Act/360 as in the
source (convention Act360). -/

/-- Modelled from the spec: log discount factor of a FlatForwardRate segment
between two adjacent nodes containing the query window.  Finds the first
adjacent node pair whose closed interval contains both endpoints of the
window; none when the window straddles every node boundary or leaves the
node range. -/
def findSpan : List (Int × ℚ) → Int → Int → Option ((Int × ℚ) × (Int × ℚ))
  | p :: q :: rest, a, b =>
    if p.1 ≤ a ∧ b ≤ q.1 then some (p, q) else findSpan (q :: rest) a b
  | _, _, _ => none

/-- Modelled from the spec: forward rate of a FlatForwardRate segment over a
window, from the scenario of section 8: the constant forward implied by the
log-linear-in-time discount factor over the adjacent node pair containing the
window under Act/360, and rejected (none) when the window straddles a node
boundary, since the step scheme must not interpolate across it. -/
def flatForwardRate (nodes : List (Int × ℚ)) (a b : Int) : Option ℚ :=
  if a < b then
    match findSpan nodes a b with
    | some ((d0, l0), (d1, l1)) =>
      if d0 < d1 then
        let la := l0 + (l1 - l0) * ((a : ℚ) - (d0 : ℚ)) / ((d1 : ℚ) - (d0 : ℚ))
        let lb := l0 + (l1 - l0) * ((b : ℚ) - (d0 : ℚ)) / ((d1 : ℚ) - (d0 : ℚ))
        some ((la - lb) * 360 / ((b : ℚ) - (a : ℚ)))
      else none
    | none => none
  else none

/-- The concrete scenario segment of the specification (section 8): nodes at
day 0, day 30 and day 60, with the log discount factors implying a 5.00
percent forward over the first interval and 4.75 percent over the second
under Act/360. -/
def scenarioNodes : List (Int × ℚ) :=
  [(0, 0),
   (30, -(5 / 100) * (30 / 360)),
   (60, -(5 / 100) * (30 / 360) - (475 / 10000) * (30 / 360))]

/-! ## Composite discount factor

The CompositeCurve assembled in build_composite_curve (src/api/curves.py
lines 250-254) is a rateslib object; its discount-factor chaining rule is
modelled from the specification (section 4.2) over the reals, where the
continuity property is stated. -/

/-- Modelled from the spec: discount factor of a two-segment composite curve
with boundary b (section 4.2).  Up to the boundary the first segment's
discount factor applies; past it, the composite value at the boundary is
scaled by the ratio of the later segment's discount factor at the query date
to its discount factor at its own start boundary. -/
noncomputable def compositeDF (f g : ℝ → ℝ) (b : ℝ) : ℝ → ℝ :=
  fun t => if t ≤ b then f t else f b * (g t / g b)

/-! ## Helper lemmas on node dictionaries -/

/-- Propositional form of key membership in a node dictionary. -/
def memKey (ns : List (Int × ℚ)) (e : Int) : Prop :=
  ∃ p ∈ ns, p.1 = e

theorem hasKey_iff (ns : List (Int × ℚ)) (e : Int) :
    hasKey ns e = true ↔ memKey ns e := by
  simp [hasKey, memKey, List.any_eq_true]

theorem fst_dictReplace (d : Int) (v : ℚ) (p : Int × ℚ) :
    (if p.1 = d then (d, v) else p).1 = p.1 := by
  by_cases hp : p.1 = d <;> simp [hp]

theorem memKey_dictInsert (ns : List (Int × ℚ)) (d e : Int) (v : ℚ) :
    memKey (dictInsert ns d v) e ↔ memKey ns e ∨ e = d := by
  by_cases h : ns.any (fun p => p.1 = d)
  · rw [dictInsert, if_pos h]
    have hd : memKey ns d := (hasKey_iff ns d).mp h
    constructor
    · rintro ⟨p, hp, hpe⟩
      obtain ⟨q, hq, hqe⟩ := List.mem_map.mp hp
      left
      exact ⟨q, hq, by rw [← hqe] at hpe; rwa [fst_dictReplace] at hpe⟩
    · rintro (⟨p, hp, hpe⟩ | he)
      · exact ⟨_, List.mem_map_of_mem _ hp, by rwa [fst_dictReplace]⟩
      · subst he
        obtain ⟨p, hp, hpe⟩ := hd
        exact ⟨_, List.mem_map_of_mem _ hp, by rw [fst_dictReplace]; exact hpe⟩
  · rw [dictInsert, if_neg h]
    constructor
    · rintro ⟨p, hp, hpe⟩
      rcases List.mem_append.mp hp with hp | hp
      · exact Or.inl ⟨p, hp, hpe⟩
      · simp only [List.mem_singleton] at hp
        subst hp
        exact Or.inr hpe.symm
    · rintro (⟨p, hp, hpe⟩ | he)
      · exact ⟨p, List.mem_append_left _ hp, hpe⟩
      · exact ⟨(d, v), List.mem_append_right _ (List.mem_singleton.mpr rfl), he.symm⟩

theorem length_dictInsert_mem (ns : List (Int × ℚ)) (d : Int) (v : ℚ)
    (h : memKey ns d) : (dictInsert ns d v).length = ns.length := by
  rw [dictInsert,
    if_pos (show (ns.any fun p => decide (p.1 = d)) = true from (hasKey_iff ns d).mpr h),
    List.length_map]

theorem length_dictInsert_fresh (ns : List (Int × ℚ)) (d : Int) (v : ℚ)
    (h : ¬ memKey ns d) : (dictInsert ns d v).length = ns.length + 1 := by
  rw [dictInsert,
    if_neg (show ¬ (ns.any fun p => decide (p.1 = d)) = true from
      fun hc => h ((hasKey_iff ns d).mp hc))]
  simp

theorem lookupKey_map_replace (ns : List (Int × ℚ)) (d : Int) (v : ℚ)
    (h : hasKey ns d = true) :
    lookupKey (ns.map (fun p => if p.1 = d then (d, v) else p)) d = some v := by
  induction ns with
  | nil => simp [hasKey] at h
  | cons q rest ih =>
    by_cases hq : q.1 = d
    · simp [lookupKey, List.find?, hq]
    · have hrest : hasKey rest d = true := by
        simpa [hasKey, hq] using h
      simpa [lookupKey, List.find?, hq] using ih hrest

/-! ## Helper lemmas on the solver loop -/

theorem le_foldl_max (l : List ℚ) (init : ℚ) :
    init ≤ l.foldl (fun m x => max m |x|) init := by
  induction l generalizing init with
  | nil => simp
  | cons y ys ih => exact le_trans (le_max_left _ _) (ih (max init |y|))

theorem abs_le_foldl_max (l : List ℚ) (init : ℚ) (x : ℚ) (hx : x ∈ l) :
    |x| ≤ l.foldl (fun m x => max m |x|) init := by
  induction l generalizing init with
  | nil => simp at hx
  | cons y ys ih =>
    rcases List.mem_cons.mp hx with h | h
    · subst h
      exact le_trans (le_max_right init |x|) (le_foldl_max ys _)
    · exact ih _ h

theorem abs_lt_of_maxAbs_lt (l : List ℚ) (t : ℚ) (x : ℚ) (hx : x ∈ l)
    (h : maxAbs l < t) : |x| < t :=
  lt_of_le_of_lt (abs_le_foldl_max l 0 x hx) h

theorem solveLoop_ok {σ : Type} (resid : σ → List ℚ) (update : σ → σ) (tol : ℚ)
    (fuel : Nat) (s : σ) (iters : Nat) (r : SolverResult σ)
    (h : solveLoop resid update tol fuel s iters = .ok r) :
    maxAbs (resid r.solved_curve) < tol ∧ r.converged = true ∧
      r.residuals = resid r.solved_curve := by
  induction fuel generalizing s iters with
  | zero => simp [solveLoop] at h
  | succ n ih =>
    rw [solveLoop] at h
    by_cases hc : maxAbs (resid s) < tol
    · rw [if_pos hc] at h
      cases h
      exact ⟨hc, rfl, rfl⟩
    · rw [if_neg hc] at h
      exact ih (update s) (iters + 1) h

theorem solveLoop_error {σ : Type} (resid : σ → List ℚ) (update : σ → σ) (tol : ℚ)
    (fuel : Nat) (s : σ) (iters : Nat) (e : CalibrationError)
    (h : solveLoop resid update tol fuel s iters = .error e) :
    e.iterations = iters + fuel ∧ e.last_residuals = resid (update^[fuel] s) := by
  induction fuel generalizing s iters with
  | zero =>
    rw [solveLoop] at h
    cases h
    exact ⟨rfl, rfl⟩
  | succ n ih =>
    rw [solveLoop] at h
    by_cases hc : maxAbs (resid s) < tol
    · rw [if_pos hc] at h
      cases h
    · rw [if_neg hc] at h
      obtain ⟨h1, h2⟩ := ih (update s) (iters + 1) h
      refine ⟨by omega, ?_⟩
      rw [h2, Function.iterate_succ_apply]

theorem solveLoop_converged_start {σ : Type} (resid : σ → List ℚ)
    (update : σ → σ) (tol : ℚ) (fuel : Nat) (s : σ) (iters : Nat)
    (h : maxAbs (resid s) < tol) (hf : fuel ≠ 0) :
    solveLoop resid update tol fuel s iters = .ok ⟨s, iters, resid s, true⟩ := by
  cases fuel with
  | zero => exact absurd rfl hf
  | succ n => rw [solveLoop, if_pos h]

theorem solveLoop_composite_longVals (resid : CompositeState → List ℚ)
    (shortStep : CompositeState → List ℚ) (tol : ℚ) (fuel : Nat)
    (s : CompositeState) (iters : Nat) (r : SolverResult CompositeState)
    (h : solveLoop resid (compositeUpdate shortStep) tol fuel s iters = .ok r) :
    r.solved_curve.longVals = s.longVals := by
  induction fuel generalizing s iters with
  | zero => simp [solveLoop] at h
  | succ n ih =>
    rw [solveLoop] at h
    by_cases hc : maxAbs (resid s) < tol
    · rw [if_pos hc] at h
      cases h
      rfl
    · rw [if_neg hc] at h
      exact ih (compositeUpdate shortStep s) (iters + 1) h

theorem mem_calibResiduals {σ : Type} (parRate : Nat → σ → ℚ) (targets : List ℚ)
    (s : σ) (i : Nat) (hi : i < targets.length) :
    parRate i s - targets.getD i 0 ∈ calibResiduals parRate targets s := by
  exact List.mem_map.mpr ⟨i, List.mem_range.mpr hi, rfl⟩

/-! ## Counting the short-end node dictionary -/

theorem memKey_foldl_dictInsert (ds : List Int) (ns : List (Int × ℚ)) (e : Int) :
    memKey (ds.foldl (fun acc d => dictInsert acc d 1) ns) e ↔
      memKey ns e ∨ e ∈ ds := by
  induction ds generalizing ns with
  | nil => simp
  | cons d rest ih =>
    simp only [List.foldl_cons, ih (dictInsert ns d 1), memKey_dictInsert,
      List.mem_cons]
    tauto

theorem length_foldl_dictInsert (ds : List Int) (ns : List (Int × ℚ))
    (hnd : ds.Nodup) (hfresh : ∀ d ∈ ds, ¬ memKey ns d) :
    (ds.foldl (fun acc d => dictInsert acc d 1) ns).length =
      ns.length + ds.length := by
  induction ds generalizing ns with
  | nil => simp
  | cons d rest ih =>
    simp only [List.foldl_cons, List.length_cons]
    have hfresh2 : ∀ x ∈ rest, ¬ memKey (dictInsert ns d 1) x := by
      intro x hx hmem
      rcases (memKey_dictInsert ns d x 1).mp hmem with h | h
      · exact hfresh x (List.mem_cons_of_mem _ hx) h
      · subst h
        exact (List.nodup_cons.mp hnd).1 hx
    rw [ih (dictInsert ns d 1) (List.nodup_cons.mp hnd).2 hfresh2,
      length_dictInsert_fresh ns d 1 (hfresh d (List.mem_cons_self d rest))]
    omega

theorem fomcFold_eq_of_all (curveDate : Int) (ds : List Int)
    (ns : List (Int × ℚ)) (h : ∀ d ∈ ds, curveDate < d ∧ d < curveDate + 540) :
    ds.foldl
      (fun acc d =>
        if curveDate < d ∧ d < curveDate + 540 then dictInsert acc d 1 else acc) ns
      = ds.foldl (fun acc d => dictInsert acc d 1) ns := by
  induction ds generalizing ns with
  | nil => rfl
  | cons d rest ih =>
    simp only [List.foldl_cons, if_pos (h d (List.mem_cons_self d rest))]
    exact ih _ (fun x hx => h x (List.mem_cons_of_mem _ hx))

theorem shortNodes_length (curveDate : Int) (fomcDates tenorDates : List Int)
    (h1 : fomcDates.Nodup) (h2 : tenorDates.Nodup)
    (h3 : ∀ d ∈ fomcDates, curveDate < d ∧ d < curveDate + 540)
    (h4 : ∀ d ∈ tenorDates, d ∉ fomcDates ∧ d ≠ curveDate) :
    (shortNodes curveDate fomcDates tenorDates).length =
      1 + fomcDates.length + tenorDates.length := by
  have hanchor : ∀ e, memKey [(curveDate, (1 : ℚ))] e → e = curveDate := by
    rintro e ⟨p, hp, hpe⟩
    simp only [List.mem_singleton] at hp
    subst hp
    exact hpe.symm
  have hffresh : ∀ d ∈ fomcDates, ¬ memKey [(curveDate, (1 : ℚ))] d := by
    intro d hd hmem
    have := hanchor d hmem
    subst this
    exact lt_irrefl _ (h3 d hd).1
  have htfresh : ∀ d ∈ tenorDates,
      ¬ memKey (fomcDates.foldl (fun acc d => dictInsert acc d 1)
        [(curveDate, (1 : ℚ))]) d := by
    intro d hd hmem
    rcases (memKey_foldl_dictInsert _ _ _).mp hmem with hm | hm
    · exact (h4 d hd).2 (hanchor d hm)
    · exact (h4 d hd).1 hm
  unfold shortNodes
  dsimp only
  rw [fomcFold_eq_of_all _ _ _ h3,
    length_foldl_dictInsert tenorDates _ h2 htfresh,
    length_foldl_dictInsert fomcDates _ h1 hffresh]
  simp [add_comm, add_assoc, add_left_comm]

/-! ## Claim theorems -/

/-- C1: every solved curve returned by a calibration reprices each
calibration instrument to its target rate within the default tolerance 1e-8:
a successful return of the solver on the residual vector par_rate minus
target implies every instrument's par rate on the solved curve is within
defaultTol of its target. -/
theorem round_trip_calibration {σ : Type} (parRate : Nat → σ → ℚ)
    (targets : List ℚ) (update : σ → σ) (s0 : σ) (r : SolverResult σ)
    (hok : solve (calibResiduals parRate targets) update s0 = .ok r)
    (i : Nat) (hi : i < targets.length) :
    |parRate i r.solved_curve - targets.getD i 0| < defaultTol := by
  obtain ⟨hmax, _, _⟩ := solveLoop_ok _ _ _ _ _ _ _ hok
  exact abs_lt_of_maxAbs_lt _ _ _
    (mem_calibResiduals parRate targets r.solved_curve i hi) hmax

/-- Witness for round_trip_calibration: a one-instrument calibration with par
rate equal to the state and target zero converges immediately, and the solved
curve reprices to the target within tolerance. -/
theorem round_trip_calibration_witness : |(0 : ℚ) - 0| < defaultTol := by
  have hcond : maxAbs (calibResiduals (fun _ (s : ℚ) => s) [0] 0) < defaultTol := by
    norm_num [maxAbs, calibResiduals, defaultTol, List.range_succ]
  have hsolve : solve (calibResiduals (fun _ (s : ℚ) => s) [0]) id 0 =
      .ok ⟨0, 0, calibResiduals (fun _ (s : ℚ) => s) [0] 0, true⟩ := by
    show solveLoop _ _ _ (49 + 1) _ _ = _
    rw [solveLoop, if_pos hcond]
  exact round_trip_calibration (fun _ s => s) [0] id 0 _ hsolve 0 (by norm_num)

/-- C3: the calibration call either returns a result whose maximum absolute
residual is below the default tolerance, with converged set, so a
partially-converged curve is never returned as a success, or it fails with a
CalibrationError carrying the residual vector of the last iterate and the
iteration count equal to the cap of 50. -/
theorem calibration_failure_surfaced {σ : Type} (resid : σ → List ℚ)
    (update : σ → σ) (s0 : σ) :
    match solve resid update s0 with
    | .ok r => maxAbs r.residuals < defaultTol ∧ r.converged = true
    | .error e =>
        e.iterations = defaultCap ∧
        e.last_residuals = resid (update^[defaultCap] s0) := by
  cases h : solve resid update s0 with
  | ok r =>
    obtain ⟨hmax, hconv, hres⟩ := solveLoop_ok _ _ _ _ _ _ _ h
    exact ⟨by rwa [hres], hconv⟩
  | error e =>
    obtain ⟨hit, hres⟩ := solveLoop_error _ _ _ _ _ _ _ h
    exact ⟨by simpa using hit, hres⟩

/-- C2 counterexample: in build_composite_curve, an input with three FOMC
dates inside the 540-day window and two short tenors yields four calibration
instruments (two turn FRAs plus two swaps) but five free short-segment nodes,
so the instrument count does not equal the free-node count, and the
construction completes without any validation error. -/
theorem composite_counts_mismatch :
    instrumentCount 0 [10, 40, 70] ["1W", "2W"] [5, 5] = 4 ∧
    freeNodeCount 0 [10, 40, 70] [100, 200] = 5 ∧
    instrumentCount 0 [10, 40, 70] ["1W", "2W"] [5, 5] ≠
      freeNodeCount 0 [10, 40, 70] [100, 200] := by
  decide

/-- C2 amended: build_composite_curve performs no count validation; under
distinct in-window FOMC dates and distinct fresh tenor dates, the short
segment has one free node per FOMC date plus one per tenor date, while the
instrument list has two turn FRAs when the FOMC list has at least two entries
(none otherwise) plus one swap per short tenor, so the system is square
exactly when the turn count equals the FOMC count. -/
theorem composite_system_size (curveDate : Int) (fomcDates tenorDates : List Int)
    (shortTenors : List String) (shortRates : List ℚ)
    (h1 : fomcDates.Nodup) (h2 : tenorDates.Nodup)
    (h3 : ∀ d ∈ fomcDates, curveDate < d ∧ d < curveDate + 540)
    (h4 : ∀ d ∈ tenorDates, d ∉ fomcDates ∧ d ≠ curveDate)
    (h5 : shortTenors.length = tenorDates.length) :
    freeNodeCount curveDate fomcDates tenorDates =
      fomcDates.length + tenorDates.length ∧
    instrumentCount curveDate fomcDates shortTenors shortRates =
      (if 1 < fomcDates.length then 2 else 0) + shortTenors.length ∧
    (instrumentCount curveDate fomcDates shortTenors shortRates =
        freeNodeCount curveDate fomcDates tenorDates ↔
      (if 1 < fomcDates.length then 2 else 0) = fomcDates.length) := by
  have hfree : freeNodeCount curveDate fomcDates tenorDates =
      fomcDates.length + tenorDates.length := by
    unfold freeNodeCount
    rw [shortNodes_length curveDate fomcDates tenorDates h1 h2 h3 h4]
    omega
  have hinst : instrumentCount curveDate fomcDates shortTenors shortRates =
      (if 1 < fomcDates.length then 2 else 0) + shortTenors.length := by
    unfold instrumentCount compositeInstruments
    by_cases h : 1 < fomcDates.length
    · simp [turnInstruments, h, List.length_append]
      omega
    · simp [turnInstruments, h, List.length_append]
  refine ⟨hfree, hinst, ?_⟩
  by_cases h : 1 < fomcDates.length
  · rw [hfree, hinst, h5, if_pos h]
    omega
  · rw [hfree, hinst, h5, if_neg h]
    omega

/-- Witness for composite_system_size: with exactly two in-window FOMC dates
and two fresh tenor dates the system is square. -/
theorem composite_system_size_witness :
    freeNodeCount 0 [10, 20] [100, 200] = 2 + 2 ∧
    instrumentCount 0 [10, 20] ["1W", "2W"] [5, 5] =
      (if 1 < [10, 20].length then 2 else 0) + 2 ∧
    (instrumentCount 0 [10, 20] ["1W", "2W"] [5, 5] =
        freeNodeCount 0 [10, 20] [100, 200] ↔
      (if 1 < [10, 20].length then 2 else 0) = 2) := by
  have h := composite_system_size 0 [10, 20] [100, 200] ["1W", "2W"] [5, 5]
    (by decide) (by decide) (by decide) (by decide) (by decide)
  simpa using h

/-- C4 counterexample: the per-point series loop of build_curve, at a
two-point input whose second query fails, replaces the failed point with the
previous point's value in all three series instead of surfacing the failure,
contradicting the claim that a series computation never substitutes a
carried-forward value on its own. -/
theorem series_substitutes_previous_value :
    exampleQueryTriple 1 = none ∧
    buildCurveSeries exampleQueryTriple [0, 1] =
      ([7, 7], [9 / 10, 9 / 10], [7, 7]) :=
  ⟨rfl, rfl⟩

/-- C4 amended: the engine-side series of build_curves records a failed point
as None, never substituting a value for it, while the series loop of
build_curve substitutes the previous point's value (or the default) for a
failed point. -/
theorem series_error_handling (q : Int → Option ℚ)
    (qT : Int → Option (ℚ × ℚ × ℚ)) (pts prevPts : List Int) (p : Int)
    (i : Nat) (hi : i < pts.length) (hq : q (pts.get ⟨i, hi⟩) = none)
    (hqT : qT p = none) :
    (buildCurvesForwardSeries q pts).getD i (some 0) = none ∧
    (buildCurveSeries qT (prevPts ++ [p])).1 =
      (buildCurveSeries qT prevPts).1 ++
        [(buildCurveSeries qT prevPts).1.getLastD 4] := by
  constructor
  · simp only [buildCurvesForwardSeries, List.getD_eq_getElem?_getD,
      List.getElem?_map, List.getElem?_eq_getElem hi]
    simp [List.get_eq_getElem] at hq
    simp [hq]
  · simp only [buildCurveSeries, List.foldl_append, List.foldl_cons,
      List.foldl_nil, hqT]

/-- Witness for series_error_handling at the concrete failing query. -/
theorem series_error_handling_witness :
    (buildCurvesForwardSeries exampleQueryOne [0, 1]).getD 1 (some 0) = none ∧
    (buildCurveSeries exampleQueryTriple ([0] ++ [1])).1 =
      (buildCurveSeries exampleQueryTriple [0]).1 ++
        [(buildCurveSeries exampleQueryTriple [0]).1.getLastD 4] :=
  series_error_handling exampleQueryOne exampleQueryTriple [0, 1] [0] 1 1
    (by decide) (by decide) (by decide)

/-- C5: the composite discount factor is continuous across the segment
boundary: when both segments' discount-factor functions are continuous and
the later segment does not vanish at the boundary, the chained composite
discount factor is a continuous function, and its value at the boundary is
the first segment's value there. -/
theorem composite_df_continuous (f g : ℝ → ℝ) (b : ℝ)
    (hf : Continuous f) (hg : Continuous g) (hgb : g b ≠ 0) :
    Continuous (compositeDF f g b) ∧ compositeDF f g b b = f b := by
  constructor
  · have hbr : Continuous fun t : ℝ => f b * (g t / g b) :=
      continuous_const.mul (hg.div_const _)
    refine Continuous.if_le hf hbr continuous_id continuous_const ?_
    intro x hx
    rw [hx, div_self hgb, mul_one]
  · simp [compositeDF]

/-- Witness for composite_df_continuous at constant unit discount factors. -/
theorem composite_df_continuous_witness :
    Continuous (compositeDF (fun _ => 1) (fun _ => 1) 0) ∧
    compositeDF (fun _ => 1) (fun _ => 1) 0 0 = 1 :=
  composite_df_continuous (fun _ => 1) (fun _ => 1) 0
    continuous_const continuous_const one_ne_zero

/-- C6: on the scenario segment with nodes at days 0, 30 and 60 implying
forward rates 5.00 percent and 4.75 percent, the forward-rate query over
days 15 to 16 returns 5.00 percent, over days 45 to 46 returns 4.75 percent,
and a query straddling the day-30 step boundary is rejected. -/
theorem flat_forward_step_scenario :
    flatForwardRate scenarioNodes 15 16 = some (5 / 100) ∧
    flatForwardRate scenarioNodes 45 46 = some (475 / 10000) ∧
    flatForwardRate scenarioNodes 29 31 = none := by
  refine ⟨?_, ?_, ?_⟩ <;> norm_num [flatForwardRate, findSpan, scenarioNodes]

/-- C7: in the composite pipeline the long segment is solved standalone
first and the composite calibration, whose Newton update rewrites only the
short segment's values, leaves the solved long segment's node values
unchanged in the returned curve. -/
theorem composite_long_fixed (solveLong : List ℚ → List ℚ)
    (resid : CompositeState → List ℚ) (shortStep : CompositeState → List ℚ)
    (longInit shortInit : List ℚ) (r : SolverResult CompositeState)
    (hok : buildCompositePipeline solveLong resid shortStep longInit shortInit
      = .ok r) :
    r.solved_curve.longVals = solveLong longInit := by
  exact solveLoop_composite_longVals resid shortStep defaultTol defaultCap
    ⟨solveLong longInit, shortInit⟩ 0 r hok

/-- Witness for composite_long_fixed: a trivially-converging composite solve
returns the standalone-solved long values untouched. -/
theorem composite_long_fixed_witness :
    (CompositeState.mk [1] [2]).longVals = id [1] := by
  have hsolve : buildCompositePipeline id (fun _ => []) (fun s => s.shortVals)
      [1] [2] = .ok ⟨⟨id [1], [2]⟩, 0, [], true⟩ :=
    solveLoop_converged_start (fun _ => []) (compositeUpdate fun s => s.shortVals)
      defaultTol defaultCap ⟨id [1], [2]⟩ 0
      (by norm_num [maxAbs, defaultTol]) (by norm_num [defaultCap])
  exact composite_long_fixed id (fun _ => []) (fun s => s.shortVals) [1] [2]
    ⟨⟨id [1], [2]⟩, 0, [], true⟩ hsolve

/-- C8 counterexample: node insertion with a duplicate date silently
overwrites the existing node's value and raises no validation error, and in
build_composite_curve an FOMC date coinciding with a short-tenor date
collapses to a single node with the last-written value instead of failing. -/
theorem duplicate_node_overwrite :
    dictInsert [((100 : Int), (7 : ℚ))] 100 9 = [(100, 9)] ∧
    shortNodes 0 [100] [100] = [(0, 1), (100, 1)] := by
  decide

/-- C8 amended: inserting a node whose date duplicates an existing node's
date keeps the node count unchanged and silently replaces the stored value
with the newly written one, with no validation error anywhere in the
construction. -/
theorem duplicate_insert_semantics (ns : List (Int × ℚ)) (d : Int) (v : ℚ)
    (h : memKey ns d) :
    (dictInsert ns d v).length = ns.length ∧
    lookupKey (dictInsert ns d v) d = some v := by
  refine ⟨length_dictInsert_mem ns d v h, ?_⟩
  rw [dictInsert,
    if_pos (show (ns.any fun p => decide (p.1 = d)) = true from (hasKey_iff ns d).mpr h)]
  exact lookupKey_map_replace ns d v ((hasKey_iff ns d).mpr h)

/-- Witness for duplicate_insert_semantics on a one-node dictionary. -/
theorem duplicate_insert_semantics_witness :
    (dictInsert [((100 : Int), (7 : ℚ))] 100 9).length = 1 ∧
    lookupKey (dictInsert [((100 : Int), (7 : ℚ))] 100 9) 100 = some 9 :=
  duplicate_insert_semantics [((100 : Int), (7 : ℚ))] 100 9
    ⟨(100, 7), List.mem_singleton.mpr rfl, rfl⟩

/-- C9 counterexample: calculate_risk_metrics of src/api/risk.py, given the
unknown instrument type bond, returns a well-formed result with npv, dv01 and
convexity all zero instead of failing with a validation error. -/
theorem risk_unknown_type_zeroed :
    calculateRiskMetricsRisk "bond" ⟨1, 2, 3⟩ ⟨4, 5, 6⟩ ⟨7, 8, 9⟩ ⟨10, 11, 12⟩
      = .result "bond" ⟨0, 0, 0⟩ ⟨0, 0, 0⟩ 0 0 0 := by
  unfold calculateRiskMetricsRisk
  rw [if_neg (by decide : ¬ ("bond" = "swap")),
    if_neg (by decide : ¬ ("bond" = "fra"))]
  norm_num [riskPackage]

/-- C9 amended: for an instrument type that is neither swap nor fra, the
api_server version of calculate_risk_metrics fails with an error naming the
unknown type, while the risk.py version returns a well-formed result with
every metric zeroed. -/
theorem risk_unknown_type_dispatch (t : String) (a b c d : RiskValues)
    (h1 : t ≠ "swap") (h2 : t ≠ "fra") :
    calculateRiskMetricsServer t a b c d =
      .error ("Unknown instrument type: " ++ t) ∧
    calculateRiskMetricsRisk t a b c d =
      .result t ⟨0, 0, 0⟩ ⟨0, 0, 0⟩ 0 0 0 := by
  constructor
  · simp [calculateRiskMetricsServer, h1, h2]
  · simp [calculateRiskMetricsRisk, h1, h2, riskPackage]

/-- Witness for risk_unknown_type_dispatch at the concrete type bond. -/
theorem risk_unknown_type_dispatch_witness :
    calculateRiskMetricsServer "bond" ⟨1, 2, 3⟩ ⟨4, 5, 6⟩ ⟨7, 8, 9⟩ ⟨10, 11, 12⟩
      = .error ("Unknown instrument type: " ++ "bond") ∧
    calculateRiskMetricsRisk "bond" ⟨1, 2, 3⟩ ⟨4, 5, 6⟩ ⟨7, 8, 9⟩ ⟨10, 11, 12⟩
      = .result "bond" ⟨0, 0, 0⟩ ⟨0, 0, 0⟩ 0 0 0 :=
  risk_unknown_type_dispatch "bond" ⟨1, 2, 3⟩ ⟨4, 5, 6⟩ ⟨7, 8, 9⟩ ⟨10, 11, 12⟩
    (by decide) (by decide)

/-- C10: the turn-FRA construction of build_composite_curve is determined
solely by the FOMC list: no turn FRA for zero or one entries and exactly two,
anchored one day either side of the first two FOMC dates at fixed rates 5.33
and 5.08, for two or more entries; the instrument list is the turn FRAs
followed by the per-tenor swaps, independent of the market rates; and the
hybrid build_composite_curve_rl adds exactly one turn FRA at 4.29 when the
list is non-empty with its first date after the curve date. -/
theorem turn_instrument_policy (curveDate : Int) (fomcDates : List Int)
    (shortTenors : List String) (shortRates : List ℚ) :
    (turnInstruments fomcDates =
      if 1 < fomcDates.length then
        ([Inst.fra (fomcDates.getD 0 0 - 1) (fomcDates.getD 0 0 + 1) (533 / 100),
          Inst.fra (fomcDates.getD 1 0 - 1) (fomcDates.getD 1 0 + 1) (508 / 100)],
         [533 / 100, 508 / 100])
      else ([], [])) ∧
    (turnInstruments fomcDates).1.length =
      (if 1 < fomcDates.length then 2 else 0) ∧
    (compositeInstruments curveDate fomcDates shortTenors shortRates).1 =
      (turnInstruments fomcDates).1 ++
        shortTenors.map (fun t => Inst.irs (curveDate + 2) t) ∧
    turnInstrumentsHybrid curveDate fomcDates =
      (if 0 < fomcDates.length ∧ curveDate < fomcDates.getD 0 0 then
        ([Inst.fra (fomcDates.getD 0 0 - 1) (fomcDates.getD 0 0 + 1) (429 / 100)],
         [429 / 100])
      else ([], [])) := by
  refine ⟨?_, ?_, rfl, ?_⟩
  · by_cases h : 1 < fomcDates.length <;> simp [turnInstruments, h]
  · by_cases h : 1 < fomcDates.length <;> simp [turnInstruments, h]
  · by_cases h : 0 < fomcDates.length ∧ curveDate < fomcDates.getD 0 0 <;>
      simp [turnInstrumentsHybrid, h]

end CurveDemo
